import Mathlib

/-
Verification of the sqlite2pg migration script (src/sqlite2pg.py).

The script copies six tables from a SQLite database into PostgreSQL:
it creates the tables from a static schema description, copies the rows
table by table (coercing boolean-as-integer and blob columns), and then
resynchronizes the PostgreSQL sequences.

The embedding below models SQL values as an inductive `Value` type, the
source database as a pure function from table name to its rows (one value
per selected field, in field order, as `SELECT f1, ..., fn FROM t`
returns), and the PostgreSQL side as an explicit state (`PGState`)
together with a trace of events (statements executed and messages
printed).  Exceptions raised by the database drivers are modelled by an
oracle (`Oracle`) saying which statements fail; the script catches every
exception, prints a message and continues, which the model mirrors.
-/

namespace Sqlite2pg

/-- A SQL value as handled by the script: NULL, integers, text, blobs
(byte strings, modelled as lists of byte values) and booleans. -/
inductive Value where
  | null : Value
  | int : Int → Value
  | text : String → Value
  | blob : List Nat → Value
  | bool : Bool → Value
  deriving Repr, DecidableEq

/-- The static schema description `TABLES` of sqlite2pg.py: an ordered
association list from table name to its ordered list of
(column name, PostgreSQL type declaration) pairs, in the source's
insertion order. -/
def TABLES : List (String × List (String × String)) :=
  [("migrations",
    [("id", "varchar(32) PRIMARY KEY")]),
   ("users",
    [("id", "bigserial PRIMARY KEY"),
     ("created_at", "timestamp with time zone"),
     ("updated_at", "timestamp with time zone"),
     ("deleted_at", "timestamp with time zone"),
     ("name", "varchar(63) UNIQUE NOT NULL"),
     ("display_name", "varchar(63)"),
     ("email", "varchar(255)"),
     ("provider_identifier", "varchar(255)"),
     ("provider", "varchar(255)"),
     ("profile_pic_url", "varchar(255)")]),
   ("pre_auth_keys",
    [("id", "bigserial PRIMARY KEY"),
     ("key", "varchar(63) UNIQUE NOT NULL"),
     ("user_id", "bigint REFERENCES users(id)"),
     ("reusable", "boolean DEFAULT false"),
     ("ephemeral", "boolean DEFAULT false"),
     ("used", "boolean DEFAULT false"),
     ("tags", "varchar(255)"),
     ("created_at", "timestamp with time zone"),
     ("expiration", "timestamp with time zone")]),
   ("api_keys",
    [("id", "bigserial PRIMARY KEY"),
     ("prefix", "varchar(8) UNIQUE NOT NULL"),
     ("hash", "bytea NOT NULL"),
     ("created_at", "timestamp with time zone"),
     ("expiration", "timestamp with time zone"),
     ("last_seen", "timestamp with time zone")]),
   ("policies",
    [("id", "bigserial PRIMARY KEY"),
     ("created_at", "timestamp with time zone"),
     ("updated_at", "timestamp with time zone"),
     ("deleted_at", "timestamp with time zone"),
     ("data", "text")]),
   ("nodes",
    [("id", "bigserial PRIMARY KEY"),
     ("machine_key", "varchar(255) UNIQUE NOT NULL"),
     ("node_key", "varchar(255)"),
     ("disco_key", "varchar(255)"),
     ("endpoints", "text"),
     ("host_info", "text"),
     ("ipv4", "inet"),
     ("ipv6", "inet"),
     ("hostname", "varchar(255)"),
     ("given_name", "varchar(255)"),
     ("user_id", "bigint REFERENCES users(id)"),
     ("register_method", "varchar(255)"),
     ("forced_tags", "text"),
     ("auth_key_id", "bigint"),
     ("expiry", "timestamp with time zone"),
     ("last_seen", "timestamp with time zone"),
     ("approved_routes", "text"),
     ("created_at", "timestamp with time zone"),
     ("updated_at", "timestamp with time zone"),
     ("deleted_at", "timestamp with time zone")])]

/-- `BOOL_FIELDS`: the boolean-as-integer columns, per table. -/
def BOOL_FIELDS : List (String × List String) :=
  [("pre_auth_keys", ["reusable", "ephemeral", "used"])]

/-- `BLOB_FIELDS`: the binary blob columns, per table. -/
def BLOB_FIELDS : List (String × List String) :=
  [("api_keys", ["hash"])]

/-- `TABLES[table]['columns']`: the column list of a table (empty for an
unknown table name; `main` only looks up the six declared tables). -/
def tableColumns (table : String) : List (String × String) :=
  ((TABLES.lookup table).getD [])

/-- The field-name list `[col for col, _ in TABLES[table]['columns']]`
built in `main`. -/
def fieldsFor (table : String) : List String :=
  (tableColumns table).map Prod.fst

/-- `BOOL_FIELDS.get(table, [])` as used in `main`. -/
def boolFieldsFor (table : String) : List String :=
  ((BOOL_FIELDS.lookup table).getD [])

/-- `BLOB_FIELDS.get(table, [])` as used in `main`. -/
def blobFieldsFor (table : String) : List String :=
  ((BLOB_FIELDS.lookup table).getD [])

/-- `convert_bool`: `None` is preserved; any other value goes through
Python's `bool(...)` truthiness (an integer is truthy iff nonzero, a
string iff nonempty, a byte string iff nonempty). -/
def convert_bool : Value → Value
  | Value.null => Value.null
  | Value.int n => Value.bool (n != 0)
  | Value.text s => Value.bool (s != "")
  | Value.blob b => Value.bool (!b.isEmpty)
  | Value.bool b => Value.bool b

/-- The `bytes(row[idx])` call applied to non-NULL blob values in
`fetch_and_insert`.  The source notes that sqlite3 returns `bytes` for
blob columns, and `bytes` applied to a byte string is that byte string;
on a non-byte value the call is left as the identity here. -/
def bytesOf : Value → Value
  | Value.blob b => Value.blob b
  | v => v

/-- The bool pass of the `fetch_and_insert` loop, guarded by
`if bool_fields:` (an empty list is falsy, so the pass is skipped): for
each index of the field list, the value in a bool field goes through
`convert_bool`.  The pass walks the field list positionally, exactly
like `for idx, fname in enumerate(fields)` does on a row that has one
value per selected field. -/
def boolStep (bool_fields fields : List String) (row : List Value) :
    List Value :=
  if bool_fields = [] then row
  else List.zipWith
    (fun fname v => if fname ∈ bool_fields then convert_bool v else v)
    fields row

/-- The blob pass of the `fetch_and_insert` loop, guarded by
`if blob_fields:`: the value in a blob field is converted with
`bytes(...)` only when it is not None. -/
def blobStep (blob_fields fields : List String) (row : List Value) :
    List Value :=
  if blob_fields = [] then row
  else List.zipWith
    (fun fname v =>
      if fname ∈ blob_fields ∧ v ≠ Value.null then bytesOf v else v)
    fields row

/-- The final tupling of the loop body: `(row[0],)` when there is a
single field, `tuple(row)` otherwise.  On a row with one value per
field this keeps the row as is. -/
def tupleStep (fields : List String) (row : List Value) : List Value :=
  if fields.length = 1 then row.take 1 else row

/-- The per-row body of the `fetch_and_insert` loop: bool pass, then
blob pass, then tupling. -/
def processRow (bool_fields blob_fields fields : List String)
    (row : List Value) : List Value :=
  tupleStep fields (blobStep blob_fields fields (boolStep bool_fields fields row))

/-- The effect of the two coercion passes on a single column value,
given its field name: the bool coercion when the field is a bool field,
then the bytes conversion when the field is a blob field and the value
(after the bool pass) is not NULL. -/
def coerceField (bool_fields blob_fields : List String)
    (fname : String) (v : Value) : Value :=
  let v1 := if fname ∈ bool_fields then convert_bool v else v
  if fname ∈ blob_fields ∧ v1 ≠ Value.null then bytesOf v1 else v1

/-- The text of the statement `fetch_and_insert` executes against the
source database: `SELECT f1, ..., fn FROM table`. -/
def selectSql (fields : List String) (table : String) : String :=
  "SELECT " ++ String.intercalate ", " fields ++ " FROM " ++ table

/-- An observable event of a run: a statement executed against the
source (sqlite) or target (PostgreSQL) connection, or a message printed
to standard output. -/
inductive Event where
  | srcExec : String → Event
  | pgExecCreate : String → Event
  | pgExecInsert : String → List String → List (List Value) → Event
  | pgExecSeqSync : Event
  | printCreating : Event
  | printCreated : String → Event
  | printCreateError : String → Event
  | printProcessing : String → Event
  | printNoData : String → Event
  | printImported : String → Nat → Event
  | printInsertError : String → Event
  | printSeqUpdating : Event
  | printSeqUpdated : Event
  | printSeqError : Event
  | printDone : Event
  deriving Repr, DecidableEq

/-- The state of the target PostgreSQL database: the rows of each table
(in insertion order) and the current value of each serial sequence,
keyed by (table name, column name).  A freshly created `bigserial`
sequence stands at 1. -/
structure PGState where
  rows : String → List (List Value)
  seqs : String × String → Int

/-- The target database as the script first sees it: the tables it
creates are empty and their sequences start at 1. -/
def initPG : PGState :=
  { rows := fun _ => [], seqs := fun _ => 1 }

/-- Which statements raise an exception during a run.  The script never
inspects an exception beyond printing it, so only which statement fails
matters to the control flow. -/
structure Oracle where
  createFail : String → Bool
  insertFail : String → Bool
  seqFail : Bool

/-- `create_table`: executes `CREATE TABLE IF NOT EXISTS ...` for one
table; an exception is caught and an error message printed, otherwise a
success message is printed.  Either way control returns to the caller. -/
def create_table (fail : Bool) (table : String) : List Event :=
  if fail then [Event.pgExecCreate table, Event.printCreateError table]
  else [Event.pgExecCreate table, Event.printCreated table]

/-- `fetch_and_insert`: SELECTs every row of `table` from the source,
coerces each row with the bool/blob passes, and bulk-inserts the result
into the target.  If there are no rows it only prints a message; if the
insert raises, the exception is caught and an error printed, leaving the
target rows unchanged. -/
def fetch_and_insert (insertFail : Bool) (src : String → List (List Value))
    (table : String) (fields bool_fields blob_fields : List String)
    (st : PGState) : List Event × PGState :=
  let stmt := selectSql fields table
  let rows := (src table).map (processRow bool_fields blob_fields fields)
  if rows.isEmpty then
    ([Event.srcExec stmt, Event.printNoData table], st)
  else if insertFail then
    ([Event.srcExec stmt, Event.pgExecInsert table fields rows,
      Event.printInsertError table], st)
  else
    ([Event.srcExec stmt, Event.pgExecInsert table fields rows,
      Event.printImported table rows.length],
     { st with rows := fun t =>
         if t = table then st.rows t ++ rows else st.rows t })

/-- The columns of a table for which `pg_get_serial_sequence` returns a
sequence: exactly the columns declared `bigserial PRIMARY KEY` in the
static schema. -/
def serialCols (table : String) : List String :=
  ((tableColumns table).filter
    (fun cd => cd.2 = "bigserial PRIMARY KEY")).map Prod.fst

/-- The integer stored at column index `idx` of a row, if any (SQL `MAX`
ignores NULLs and non-integers do not occur in a bigserial column). -/
def intAt (idx : Nat) (row : List Value) : Option Int :=
  match row.getD idx Value.null with
  | Value.int n => some n
  | _ => none

/-- The non-NULL integer values of column `idx` over a table's rows:
what `SELECT MAX(col) FROM table` maximizes over. -/
def keyVals (rows : List (List Value)) (idx : Nat) : List Int :=
  rows.filterMap (intAt idx)

/-- `COALESCE((SELECT MAX(col) FROM table), 1)`: the maximum of the
column's non-NULL values, or 1 when there are none. -/
def coalesceMaxKey (rows : List (List Value)) (idx : Nat) : Int :=
  match keyVals rows idx with
  | [] => 1
  | v :: vs => vs.foldl max v

/-- `update_sequences`: the DO block iterates every serial column of the
tables in the public schema (here: the tables the script created) and
executes `setval(seq, COALESCE((SELECT MAX(col) FROM table), 1))`.  An
exception is caught and an error printed. -/
def update_sequences (fail : Bool) (order : List String) (st : PGState) :
    List Event × PGState :=
  if fail then
    ([Event.printSeqUpdating, Event.pgExecSeqSync, Event.printSeqError], st)
  else
    ([Event.printSeqUpdating, Event.pgExecSeqSync, Event.printSeqUpdated],
     { st with seqs := fun p =>
         if p.1 ∈ order ∧ p.2 ∈ serialCols p.1 then
           coalesceMaxKey (st.rows p.1) ((fieldsFor p.1).indexOf p.2)
         else st.seqs p })

/-- The fixed processing order of `main`. -/
def order : List String :=
  ["users", "migrations", "pre_auth_keys", "api_keys", "policies", "nodes"]

/-- Step 1 of `main`: create every table, in order, collecting events. -/
def createAll (o : Oracle) : List String → List Event
  | [] => []
  | t :: ts => create_table (o.createFail t) t ++ createAll o ts

/-- Step 2 of `main`: for each table in order, print the processing
banner and run `fetch_and_insert` with that table's fields, bool fields
and blob fields, threading the target state. -/
def copyAll (src : String → List (List Value)) (o : Oracle) :
    List String → PGState → List Event × PGState
  | [], st => ([], st)
  | t :: ts, st =>
    let step := fetch_and_insert (o.insertFail t) src t (fieldsFor t)
      (boolFieldsFor t) (blobFieldsFor t) st
    let rest := copyAll src o ts step.2
    (Event.printProcessing t :: step.1 ++ rest.1, rest.2)

/-- `main`: create all tables, copy all tables, update the sequences,
print the final message. -/
def runMain (src : String → List (List Value)) (o : Oracle) :
    List Event × PGState :=
  let ev1 := Event.printCreating :: createAll o order
  let res2 := copyAll src o order initPG
  let res3 := update_sequences o.seqFail order res2.2
  (ev1 ++ res2.1 ++ res3.1 ++ [Event.printDone], res3.2)

/-- The statements a trace executed against the source database. -/
def sourceStatements (evs : List Event) : List String :=
  evs.filterMap (fun e =>
    match e with
    | Event.srcExec s => some s
    | _ => none)

/-- Events belonging to the table-creation phase. -/
def isCreateEvent : Event → Bool
  | Event.pgExecCreate _ => true
  | Event.printCreating => true
  | Event.printCreated _ => true
  | Event.printCreateError _ => true
  | _ => false

/-- Events belonging to the row-copy phase. -/
def isCopyEvent : Event → Bool
  | Event.srcExec _ => true
  | Event.pgExecInsert _ _ _ => true
  | Event.printProcessing _ => true
  | Event.printNoData _ => true
  | Event.printImported _ _ => true
  | Event.printInsertError _ => true
  | _ => false

/-- Events belonging to the sequence-synchronization phase. -/
def isSeqEvent : Event → Bool
  | Event.pgExecSeqSync => true
  | Event.printSeqUpdating => true
  | Event.printSeqUpdated => true
  | Event.printSeqError => true
  | _ => false

/-- A small concrete source database used to evaluate the model on
closed inputs: two `policies` rows (ids 1 and 3), every other table
empty. -/
def demoSrc : String → List (List Value) :=
  fun t =>
    if t = "policies" then
      [[Value.int 1, Value.null, Value.null, Value.null, Value.text "acl"],
       [Value.int 3, Value.null, Value.null, Value.null, Value.null]]
    else []

/-- An oracle on which no statement fails. -/
def demoOracle : Oracle :=
  { createFail := fun _ => false, insertFail := fun _ => false,
    seqFail := false }

/-- An oracle on which creating `users` and inserting into `policies`
fail. -/
def demoFailOracle : Oracle :=
  { createFail := fun t => t == "users",
    insertFail := fun t => t == "policies", seqFail := false }

/-- A target state holding the two copied demo `policies` rows. -/
def demoSt : PGState :=
  { rows := fun t =>
      if t = "policies" then
        (demoSrc "policies").map
          (processRow (boolFieldsFor "policies") (blobFieldsFor "policies")
            (fieldsFor "policies"))
      else [],
    seqs := fun _ => 1 }

/-- A concrete `pre_auth_keys` source row (nine columns; `reusable` is 1,
`ephemeral` is 0, `used` is NULL). -/
def demoPakRow : List Value :=
  [Value.int 7, Value.text "k", Value.int 2, Value.int 1, Value.int 0,
   Value.null, Value.text "tag", Value.null, Value.null]

/-- A concrete `api_keys` source row (six columns; `hash` is NULL). -/
def demoApiRow : List Value :=
  [Value.int 1, Value.text "pfx", Value.null, Value.null, Value.null,
   Value.null]

/-! ### Helper lemmas about the row-coercion pipeline -/

theorem zipWith_getD_eq (f : String → Value → Value) :
    ∀ (fs : List String) (row : List Value) (i : Nat),
      row.length = fs.length → i < fs.length →
      (List.zipWith f fs row).getD i Value.null =
        f (fs.getD i "") (row.getD i Value.null)
  | [], _, _, _, hi => absurd hi (by simp)
  | _ :: _, [], _, hlen, _ => by simp at hlen
  | _ :: _, _ :: _, 0, _, _ => by simp
  | fn :: fs, v :: row, i + 1, hlen, hi => by
    simp only [List.zipWith, List.getD_cons_succ]
    exact zipWith_getD_eq f fs row i (by simpa using hlen) (by simpa using hi)

theorem zipWith_id_of_length_eq :
    ∀ (fs : List String) (row : List Value), row.length = fs.length →
      List.zipWith (fun _ v => v) fs row = row
  | [], [], _ => rfl
  | [], _ :: _, hlen => by simp at hlen
  | _ :: _, [], hlen => by simp at hlen
  | _ :: fs, v :: row, hlen => by
    simp only [List.zipWith]
    rw [zipWith_id_of_length_eq fs row (by simpa using hlen)]

theorem zipWith_zipWith_same (g1 g2 : String → Value → Value) :
    ∀ (fs : List String) (row : List Value),
      List.zipWith g2 fs (List.zipWith g1 fs row) =
        List.zipWith (fun f v => g2 f (g1 f v)) fs row
  | [], _ => rfl
  | _ :: _, [] => rfl
  | fn :: fs, v :: row => by
    simp only [List.zipWith]
    rw [zipWith_zipWith_same g1 g2 fs row]

theorem zipWith_congr_fun (g1 g2 : String → Value → Value)
    (hg : ∀ f v, g1 f v = g2 f v) (fs : List String) (row : List Value) :
    List.zipWith g1 fs row = List.zipWith g2 fs row := by
  have h : g1 = g2 := funext fun f => funext fun v => hg f v
  rw [h]

theorem tupleStep_of_length_eq (fs : List String) (row : List Value)
    (h : row.length = fs.length) : tupleStep fs row = row := by
  unfold tupleStep
  split
  · exact List.take_of_length_le (by omega)
  · rfl

theorem boolStep_eq_zipWith (bf fs : List String) (row : List Value)
    (h : row.length = fs.length) :
    boolStep bf fs row =
      List.zipWith
        (fun fname v => if fname ∈ bf then convert_bool v else v) fs row := by
  unfold boolStep
  split
  · rename_i hbf
    subst hbf
    rw [zipWith_congr_fun _ (fun _ v => v) (by simp),
      zipWith_id_of_length_eq fs row h]
  · rfl

theorem blobStep_eq_zipWith (lf fs : List String) (row : List Value)
    (h : row.length = fs.length) :
    blobStep lf fs row =
      List.zipWith
        (fun fname v =>
          if fname ∈ lf ∧ v ≠ Value.null then bytesOf v else v) fs row := by
  unfold blobStep
  split
  · rename_i hlf
    subst hlf
    rw [zipWith_congr_fun _ (fun _ v => v) (by simp),
      zipWith_id_of_length_eq fs row h]
  · rfl

/-- The whole loop body is a single positional `zipWith` of
`coerceField` over the field list, whenever the row has one value per
field (as rows returned by `SELECT f1, ..., fn` do). -/
theorem processRow_eq_zipWith (bf lf fs : List String) (row : List Value)
    (h : row.length = fs.length) :
    processRow bf lf fs row = List.zipWith (coerceField bf lf) fs row := by
  unfold processRow
  rw [boolStep_eq_zipWith bf fs row h,
    blobStep_eq_zipWith lf fs _ (by simp [List.length_zipWith, h]),
    zipWith_zipWith_same,
    tupleStep_of_length_eq _ _ (by simp [List.length_zipWith, h])]
  exact zipWith_congr_fun _ _ (fun f v => rfl) fs row

theorem processRow_length (bf lf fs : List String) (row : List Value)
    (h : row.length = fs.length) :
    (processRow bf lf fs row).length = fs.length := by
  rw [processRow_eq_zipWith bf lf fs row h]
  simp [List.length_zipWith, h]

theorem processRow_getD (bf lf fs : List String) (row : List Value)
    (h : row.length = fs.length) (i : Nat) (hi : i < fs.length) :
    (processRow bf lf fs row).getD i Value.null =
      coerceField bf lf (fs.getD i "") (row.getD i Value.null) := by
  rw [processRow_eq_zipWith bf lf fs row h]
  exact zipWith_getD_eq (coerceField bf lf) fs row i h hi

theorem coerceField_of_not_mem (bf lf : List String) (f : String)
    (v : Value) (h1 : f ∉ bf) (h2 : f ∉ lf) :
    coerceField bf lf f v = v := by
  simp [coerceField, h1, h2]

theorem coerceField_null (bf lf : List String) (f : String) :
    coerceField bf lf f Value.null = Value.null := by
  by_cases h : f ∈ bf <;> simp [coerceField, h, convert_bool]

/-! ### Helper lemmas about the run trace -/

theorem mem_createAll_of_mem (o : Oracle) (t : String) :
    ∀ ts : List String, t ∈ ts → Event.pgExecCreate t ∈ createAll o ts
  | [], h => absurd h (by simp)
  | u :: ts, h => by
    rcases List.mem_cons.mp h with h1 | h1
    · subst h1
      simp [createAll, create_table]
      split <;> simp
    · simp only [createAll, List.mem_append]
      exact Or.inr (mem_createAll_of_mem o t ts h1)

theorem mem_createAll_error (o : Oracle) (t : String) :
    ∀ ts : List String, t ∈ ts → o.createFail t = true →
      Event.printCreateError t ∈ createAll o ts
  | [], h, _ => absurd h (by simp)
  | u :: ts, h, hf => by
    rcases List.mem_cons.mp h with h1 | h1
    · subst h1
      simp [createAll, create_table, hf]
    · simp only [createAll, List.mem_append]
      exact Or.inr (mem_createAll_error o t ts h1 hf)

theorem createAll_events (o : Oracle) :
    ∀ ts : List String, ∀ e ∈ createAll o ts, isCreateEvent e = true
  | [] => by simp [createAll]
  | u :: ts => by
    intro e he
    simp only [createAll, List.mem_append] at he
    rcases he with he | he
    · unfold create_table at he
      split at he <;> simp at he <;>
        rcases he with he | he <;> subst he <;> rfl
    · exact createAll_events o ts e he

theorem fetch_and_insert_eq_empty (insertFail : Bool)
    (src : String → List (List Value)) (table : String)
    (fields bool_fields blob_fields : List String) (st : PGState)
    (h : src table = []) :
    fetch_and_insert insertFail src table fields bool_fields blob_fields
      st =
      ([Event.srcExec (selectSql fields table), Event.printNoData table],
       st) := by
  simp [fetch_and_insert, h]

theorem map_isEmpty_false (bool_fields blob_fields fields : List String)
    (src : String → List (List Value)) (table : String)
    (h : src table ≠ []) :
    ((src table).map
      (processRow bool_fields blob_fields fields)).isEmpty = false := by
  rcases hsrc : src table with _ | ⟨r, rs⟩
  · exact absurd hsrc h
  · rfl

theorem fetch_and_insert_eq_fail (src : String → List (List Value))
    (table : String) (fields bool_fields blob_fields : List String)
    (st : PGState) (h : src table ≠ []) :
    fetch_and_insert true src table fields bool_fields blob_fields st =
      ([Event.srcExec (selectSql fields table),
        Event.pgExecInsert table fields
          ((src table).map (processRow bool_fields blob_fields fields)),
        Event.printInsertError table], st) := by
  simp [fetch_and_insert,
    map_isEmpty_false bool_fields blob_fields fields src table h]

theorem fetch_and_insert_eq_ok (src : String → List (List Value))
    (table : String) (fields bool_fields blob_fields : List String)
    (st : PGState) (h : src table ≠ []) :
    fetch_and_insert false src table fields bool_fields blob_fields st =
      ([Event.srcExec (selectSql fields table),
        Event.pgExecInsert table fields
          ((src table).map (processRow bool_fields blob_fields fields)),
        Event.printImported table
          ((src table).map
            (processRow bool_fields blob_fields fields)).length],
       { st with rows := fun t =>
           if t = table then
             st.rows t ++
               (src table).map (processRow bool_fields blob_fields fields)
           else st.rows t }) := by
  simp [fetch_and_insert,
    map_isEmpty_false bool_fields blob_fields fields src table h]

theorem fetch_and_insert_events (insertFail : Bool)
    (src : String → List (List Value)) (table : String)
    (fields bool_fields blob_fields : List String) (st : PGState) :
    ∀ e ∈ (fetch_and_insert insertFail src table fields bool_fields
      blob_fields st).1, isCopyEvent e = true := by
  intro e he
  by_cases hsrc : src table = []
  · rw [fetch_and_insert_eq_empty insertFail src table fields bool_fields
      blob_fields st hsrc] at he
    simp at he
    rcases he with he | he <;> subst he <;> rfl
  · cases insertFail
    · rw [fetch_and_insert_eq_ok src table fields bool_fields blob_fields
        st hsrc] at he
      simp at he
      rcases he with he | he | he <;> subst he <;> rfl
    · rw [fetch_and_insert_eq_fail src table fields bool_fields
        blob_fields st hsrc] at he
      simp at he
      rcases he with he | he | he <;> subst he <;> rfl

theorem fetch_and_insert_sourceStatements (insertFail : Bool)
    (src : String → List (List Value)) (table : String)
    (fields bool_fields blob_fields : List String) (st : PGState) :
    sourceStatements (fetch_and_insert insertFail src table fields
      bool_fields blob_fields st).1 = [selectSql fields table] := by
  by_cases hsrc : src table = []
  · rw [fetch_and_insert_eq_empty insertFail src table fields bool_fields
      blob_fields st hsrc]
    rfl
  · cases insertFail
    · rw [fetch_and_insert_eq_ok src table fields bool_fields blob_fields
        st hsrc]
      rfl
    · rw [fetch_and_insert_eq_fail src table fields bool_fields
        blob_fields st hsrc]
      rfl

theorem copyAll_nil (src : String → List (List Value)) (o : Oracle)
    (st : PGState) : copyAll src o [] st = ([], st) := rfl

theorem copyAll_cons (src : String → List (List Value)) (o : Oracle)
    (u : String) (ts : List String) (st : PGState) :
    copyAll src o (u :: ts) st =
      (Event.printProcessing u ::
        (fetch_and_insert (o.insertFail u) src u (fieldsFor u)
          (boolFieldsFor u) (blobFieldsFor u) st).1 ++
        (copyAll src o ts
          (fetch_and_insert (o.insertFail u) src u (fieldsFor u)
            (boolFieldsFor u) (blobFieldsFor u) st).2).1,
       (copyAll src o ts
         (fetch_and_insert (o.insertFail u) src u (fieldsFor u)
           (boolFieldsFor u) (blobFieldsFor u) st).2).2) := rfl

theorem copyAll_events (src : String → List (List Value)) (o : Oracle) :
    ∀ (ts : List String) (st : PGState),
      ∀ e ∈ (copyAll src o ts st).1, isCopyEvent e = true
  | [], _ => by
    intro e he
    rw [copyAll_nil] at he
    simp at he
  | u :: ts, st => by
    intro e he
    rw [copyAll_cons] at he
    rcases List.mem_cons.mp he with h1 | h1
    · subst h1
      rfl
    · rcases List.mem_append.mp h1 with h2 | h2
      · exact fetch_and_insert_events _ _ _ _ _ _ _ e h2
      · exact copyAll_events src o ts _ e h2

theorem copyAll_sourceStatements (src : String → List (List Value))
    (o : Oracle) :
    ∀ (ts : List String) (st : PGState),
      sourceStatements (copyAll src o ts st).1 =
        ts.map (fun t => selectSql (fieldsFor t) t)
  | [], _ => rfl
  | u :: ts, st => by
    rw [copyAll_cons]
    have h1 := fetch_and_insert_sourceStatements (o.insertFail u) src u
      (fieldsFor u) (boolFieldsFor u) (blobFieldsFor u) st
    have h2 := copyAll_sourceStatements src o ts
      (fetch_and_insert (o.insertFail u) src u (fieldsFor u)
        (boolFieldsFor u) (blobFieldsFor u) st).2
    simp only [sourceStatements] at h1 h2 ⊢
    simp only [List.filterMap_cons, List.filterMap_append, h1, h2]
    rfl

theorem createAll_sourceStatements (o : Oracle) :
    ∀ ts : List String, sourceStatements (createAll o ts) = []
  | [] => by simp [createAll, sourceStatements]
  | u :: ts => by
    unfold sourceStatements createAll
    rw [List.filterMap_append]
    have h := createAll_sourceStatements o ts
    unfold sourceStatements at h
    rw [h]
    unfold create_table
    split <;> rfl

theorem update_sequences_sourceStatements (fail : Bool)
    (ord : List String) (st : PGState) :
    sourceStatements (update_sequences fail ord st).1 = [] := by
  unfold update_sequences
  split <;> rfl

theorem update_sequences_events (fail : Bool) (ord : List String)
    (st : PGState) :
    ∀ e ∈ (update_sequences fail ord st).1, isSeqEvent e = true := by
  intro e he
  unfold update_sequences at he
  split at he <;> simp at he <;>
    rcases he with he | he | he <;> subst he <;> rfl

theorem mem_processing_copyAll (src : String → List (List Value))
    (o : Oracle) (t : String) :
    ∀ (ts : List String) (st : PGState), t ∈ ts →
      Event.printProcessing t ∈ (copyAll src o ts st).1
  | [], _, h => absurd h (by simp)
  | u :: ts, st, h => by
    rw [copyAll_cons]
    rcases List.mem_cons.mp h with h1 | h1
    · subst h1
      exact List.mem_cons_self _ _
    · exact List.mem_cons_of_mem _ (List.mem_append.mpr
        (Or.inr (mem_processing_copyAll src o t ts _ h1)))

theorem mem_insertError_fetch (src : String → List (List Value))
    (table : String) (fields bool_fields blob_fields : List String)
    (st : PGState) (hne : src table ≠ []) :
    Event.printInsertError table ∈
      (fetch_and_insert true src table fields bool_fields blob_fields
        st).1 := by
  rw [fetch_and_insert_eq_fail src table fields bool_fields blob_fields
    st hne]
  simp

theorem mem_insertError_copyAll (src : String → List (List Value))
    (o : Oracle) (t : String) :
    ∀ (ts : List String) (st : PGState), t ∈ ts →
      o.insertFail t = true → src t ≠ [] →
      Event.printInsertError t ∈ (copyAll src o ts st).1
  | [], _, h, _, _ => absurd h (by simp)
  | u :: ts, st, h, hf, hne => by
    rw [copyAll_cons]
    rcases List.mem_cons.mp h with h1 | h1
    · subst h1
      refine List.mem_cons_of_mem _ (List.mem_append.mpr (Or.inl ?_))
      rw [hf]
      exact mem_insertError_fetch src t (fieldsFor t) (boolFieldsFor t)
        (blobFieldsFor t) st hne
    · exact List.mem_cons_of_mem _ (List.mem_append.mpr
        (Or.inr (mem_insertError_copyAll src o t ts _ h1 hf hne)))

/-! ### Helper lemmas about folded maxima -/

theorem foldl_max_mem : ∀ (vs : List Int) (v : Int),
    vs.foldl max v = v ∨ vs.foldl max v ∈ vs
  | [], _ => Or.inl rfl
  | u :: vs, v => by
    rw [List.foldl_cons]
    rcases foldl_max_mem vs (max v u) with h | h
    · rcases max_choice v u with h1 | h1
      · exact Or.inl (by rw [h, h1])
      · refine Or.inr ?_
        rw [h, h1]
        exact List.mem_cons_self u vs
    · exact Or.inr (List.mem_cons_of_mem u h)

theorem le_foldl_max_init : ∀ (vs : List Int) (v : Int),
    v ≤ vs.foldl max v
  | [], _ => le_refl _
  | u :: vs, v =>
    le_trans (le_max_left v u) (le_foldl_max_init vs (max v u))

theorem le_foldl_max_of_mem : ∀ (vs : List Int) (v x : Int),
    x ∈ vs → x ≤ vs.foldl max v
  | [], _, _, h => absurd h (by simp)
  | u :: vs, v, x, h => by
    rcases List.mem_cons.mp h with h1 | h1
    · subst h1
      exact le_trans (le_max_right v x) (le_foldl_max_init vs (max v x))
    · exact le_foldl_max_of_mem vs (max v u) x h1

/-- `COALESCE((SELECT MAX(col) FROM t), 1)` really is the maximum of the
column's non-NULL values when there are any: it is one of them and every
one of them is at most it. -/
theorem coalesceMaxKey_spec (rows : List (List Value)) (idx : Nat)
    (h : keyVals rows idx ≠ []) :
    coalesceMaxKey rows idx ∈ keyVals rows idx ∧
      ∀ v ∈ keyVals rows idx, v ≤ coalesceMaxKey rows idx := by
  rcases hk : keyVals rows idx with _ | ⟨v, vs⟩
  · exact absurd hk h
  · unfold coalesceMaxKey
    rw [hk]
    show List.foldl max v vs ∈ v :: vs ∧
      ∀ x ∈ v :: vs, x ≤ List.foldl max v vs
    constructor
    · rcases foldl_max_mem vs v with h1 | h1
      · rw [h1]
        exact List.mem_cons_self v vs
      · exact List.mem_cons_of_mem v h1
    · intro x hx
      rcases List.mem_cons.mp hx with h1 | h1
      · subst h1
        exact le_foldl_max_init vs x
      · exact le_foldl_max_of_mem vs v x h1

theorem update_sequences_seqs (ord : List String) (st : PGState)
    (t c : String) (ht : t ∈ ord) (hc : c ∈ serialCols t) :
    (update_sequences false ord st).2.seqs (t, c) =
      coalesceMaxKey (st.rows t) ((fieldsFor t).indexOf c) := by
  simp [update_sequences, ht, hc]

theorem mem_srcExec_fetch (insertFail : Bool)
    (src : String → List (List Value)) (table : String)
    (fields bool_fields blob_fields : List String) (st : PGState) :
    Event.srcExec (selectSql fields table) ∈
      (fetch_and_insert insertFail src table fields bool_fields
        blob_fields st).1 := by
  by_cases hsrc : src table = []
  · rw [fetch_and_insert_eq_empty insertFail src table fields bool_fields
      blob_fields st hsrc]
    simp
  · cases insertFail
    · rw [fetch_and_insert_eq_ok src table fields bool_fields blob_fields
        st hsrc]
      simp
    · rw [fetch_and_insert_eq_fail src table fields bool_fields
        blob_fields st hsrc]
      simp

theorem mem_srcExec_copyAll (src : String → List (List Value))
    (o : Oracle) (t : String) :
    ∀ (ts : List String) (st : PGState), t ∈ ts →
      Event.srcExec (selectSql (fieldsFor t) t) ∈ (copyAll src o ts st).1
  | [], _, h => absurd h (by simp)
  | u :: ts, st, h => by
    rw [copyAll_cons]
    rcases List.mem_cons.mp h with h1 | h1
    · subst h1
      exact List.mem_cons_of_mem _ (List.mem_append.mpr
        (Or.inl (mem_srcExec_fetch (o.insertFail t) src t (fieldsFor t)
          (boolFieldsFor t) (blobFieldsFor t) st)))
    · exact List.mem_cons_of_mem _ (List.mem_append.mpr
        (Or.inr (mem_srcExec_copyAll src o t ts _ h1)))

theorem mem_seqSync_update (fail : Bool) (ord : List String)
    (st : PGState) :
    Event.pgExecSeqSync ∈ (update_sequences fail ord st).1 := by
  unfold update_sequences
  split <;> simp

/-- The run trace, split into its four phases. -/
theorem runMain_trace (src : String → List (List Value)) (o : Oracle) :
    (runMain src o).1 =
      (Event.printCreating :: createAll o order) ++
        (copyAll src o order initPG).1 ++
        (update_sequences o.seqFail order
          (copyAll src o order initPG).2).1 ++
        [Event.printDone] := rfl

/-- The final target state of a run. -/
theorem runMain_state (src : String → List (List Value)) (o : Oracle) :
    (runMain src o).2 =
      (update_sequences o.seqFail order
        (copyAll src o order initPG).2).2 := rfl

/-! ### The claims -/

/-- Claim C1: for every table, the row-copy step inserts into the target
store exactly the rows fetched from the source store: the stored list
grows by the image, in order, of the source rows (one target row per
source row), the insert statement carries that same list, every column
not subject to coercion keeps its value, and the reported row count
equals the number of source rows. -/
theorem C1_row_copy_preserves_rows (src : String → List (List Value))
    (table : String) (fields bool_fields blob_fields : List String)
    (st : PGState) (hne : src table ≠ [])
    (hlen : ∀ r ∈ src table, r.length = fields.length) :
    (fetch_and_insert false src table fields bool_fields blob_fields
        st).2.rows table =
      st.rows table ++
        (src table).map (processRow bool_fields blob_fields fields) ∧
    ((src table).map
      (processRow bool_fields blob_fields fields)).length =
      (src table).length ∧
    Event.pgExecInsert table fields
        ((src table).map (processRow bool_fields blob_fields fields)) ∈
      (fetch_and_insert false src table fields bool_fields blob_fields
        st).1 ∧
    Event.printImported table (src table).length ∈
      (fetch_and_insert false src table fields bool_fields blob_fields
        st).1 ∧
    ∀ r ∈ src table, ∀ i, i < fields.length →
      fields.getD i "" ∉ bool_fields → fields.getD i "" ∉ blob_fields →
      (processRow bool_fields blob_fields fields r).getD i Value.null =
        r.getD i Value.null := by
  have he := fetch_and_insert_eq_ok src table fields bool_fields
    blob_fields st hne
  refine ⟨?_, List.length_map _ _, ?_, ?_, ?_⟩
  · rw [he]
    simp
  · rw [he]
    simp
  · rw [he]
    simp
  · intro r hr i hi h1 h2
    rw [processRow_getD bool_fields blob_fields fields r (hlen r hr) i hi,
      coerceField_of_not_mem bool_fields blob_fields _ _ h1 h2]

theorem C1_row_copy_preserves_rows_witness :
    demoSrc "policies" ≠ [] ∧
    (∀ r ∈ demoSrc "policies",
      r.length = (fieldsFor "policies").length) ∧
    (fetch_and_insert false demoSrc "policies" (fieldsFor "policies")
        (boolFieldsFor "policies") (blobFieldsFor "policies")
        initPG).2.rows "policies" =
      initPG.rows "policies" ++
        (demoSrc "policies").map
          (processRow (boolFieldsFor "policies")
            (blobFieldsFor "policies") (fieldsFor "policies")) ∧
    Event.printImported "policies" (demoSrc "policies").length ∈
      (fetch_and_insert false demoSrc "policies" (fieldsFor "policies")
        (boolFieldsFor "policies") (blobFieldsFor "policies") initPG).1 :=
  ⟨by decide, by decide,
    (C1_row_copy_preserves_rows demoSrc "policies" (fieldsFor "policies")
      (boolFieldsFor "policies") (blobFieldsFor "policies") initPG
      (by decide) (by decide)).1,
    (C1_row_copy_preserves_rows demoSrc "policies" (fieldsFor "policies")
      (boolFieldsFor "policies") (blobFieldsFor "policies") initPG
      (by decide) (by decide)).2.2.2.1⟩

/-- Claim C2: after the copy, the sequence-synchronization step sets the
sequence of each serial column of each migrated table to the maximum
key value present in that table's data: the new counter is one of the
stored key values and every stored key value is at most it. -/
theorem C2_sequences_set_to_max (st : PGState) (t c : String)
    (ht : t ∈ order) (hc : c ∈ serialCols t)
    (hne : keyVals (st.rows t) ((fieldsFor t).indexOf c) ≠ []) :
    (update_sequences false order st).2.seqs (t, c) ∈
      keyVals (st.rows t) ((fieldsFor t).indexOf c) ∧
    ∀ v ∈ keyVals (st.rows t) ((fieldsFor t).indexOf c),
      v ≤ (update_sequences false order st).2.seqs (t, c) := by
  rw [update_sequences_seqs order st t c ht hc]
  exact coalesceMaxKey_spec _ _ hne

theorem C2_sequences_set_to_max_witness :
    "policies" ∈ order ∧
    "id" ∈ serialCols "policies" ∧
    keyVals (demoSt.rows "policies")
      ((fieldsFor "policies").indexOf "id") ≠ [] ∧
    (update_sequences false order demoSt).2.seqs ("policies", "id") ∈
      keyVals (demoSt.rows "policies")
        ((fieldsFor "policies").indexOf "id") :=
  ⟨by decide, by decide, by decide,
    (C2_sequences_set_to_max demoSt "policies" "id" (by decide)
      (by decide) (by decide)).1⟩

/-- Claim C3: the boolean-as-integer coercion preserves NULL, maps zero
to false and any nonzero integer to true, and the bool-field table
declares exactly the columns reusable, ephemeral and used of table
pre_auth_keys; on a pre_auth_keys row the copy loop coerces exactly
those columns. -/
theorem C3_bool_coercion :
    convert_bool Value.null = Value.null ∧
    convert_bool (Value.int 0) = Value.bool false ∧
    (∀ n : Int, n ≠ 0 →
      convert_bool (Value.int n) = Value.bool true) ∧
    BOOL_FIELDS = [("pre_auth_keys", ["reusable", "ephemeral", "used"])] ∧
    boolFieldsFor "pre_auth_keys" = ["reusable", "ephemeral", "used"] ∧
    (∀ t, t ≠ "pre_auth_keys" → boolFieldsFor t = []) ∧
    ∀ (row : List Value) (i : Nat),
      row.length = (fieldsFor "pre_auth_keys").length →
      i < (fieldsFor "pre_auth_keys").length →
      (processRow (boolFieldsFor "pre_auth_keys")
          (blobFieldsFor "pre_auth_keys") (fieldsFor "pre_auth_keys")
          row).getD i Value.null =
        if (fieldsFor "pre_auth_keys").getD i "" ∈
            (["reusable", "ephemeral", "used"] : List String) then
          convert_bool (row.getD i Value.null)
        else row.getD i Value.null := by
  refine ⟨rfl, by decide, ?_, rfl, by decide, ?_, ?_⟩
  · intro n hn
    simp [convert_bool, bne_iff_ne, hn]
  · intro t ht
    have hbeq : (t == "pre_auth_keys") = false :=
      beq_eq_false_iff_ne.mpr ht
    simp [boolFieldsFor, BOOL_FIELDS, List.lookup, hbeq]
  · intro row i h1 h2
    rw [processRow_getD _ _ _ _ h1 i h2]
    have hb : boolFieldsFor "pre_auth_keys" =
        ["reusable", "ephemeral", "used"] := by decide
    have hl : blobFieldsFor "pre_auth_keys" = [] := by decide
    rw [hb, hl]
    simp [coerceField]

theorem C3_bool_coercion_witness :
    ((3 : Int) ≠ 0 ∧ convert_bool (Value.int 3) = Value.bool true) ∧
    convert_bool (Value.int 0) = Value.bool false ∧
    (processRow (boolFieldsFor "pre_auth_keys")
        (blobFieldsFor "pre_auth_keys") (fieldsFor "pre_auth_keys")
        demoPakRow).getD 3 Value.null =
      (if (fieldsFor "pre_auth_keys").getD 3 "" ∈
          (["reusable", "ephemeral", "used"] : List String) then
        convert_bool (demoPakRow.getD 3 Value.null)
      else demoPakRow.getD 3 Value.null) :=
  ⟨⟨by decide, C3_bool_coercion.2.2.1 3 (by decide)⟩,
    C3_bool_coercion.2.1,
    C3_bool_coercion.2.2.2.2.2.2 demoPakRow 3 (by decide) (by decide)⟩

/-- Claim C4: an error raised while creating a table or inserting a
table's rows is caught with a printed message and the migration goes on:
whatever the oracle makes fail, every table is still processed, the
sequence-synchronization statement is still executed, and the failing
steps leave their error message in the output. -/
theorem C4_errors_do_not_stop_migration
    (src : String → List (List Value)) (o : Oracle) :
    (∀ t ∈ order, Event.printProcessing t ∈ (runMain src o).1) ∧
    Event.pgExecSeqSync ∈ (runMain src o).1 ∧
    (∀ t ∈ order, o.createFail t = true →
      Event.printCreateError t ∈ (runMain src o).1) ∧
    (∀ t ∈ order, o.insertFail t = true → src t ≠ [] →
      Event.printInsertError t ∈ (runMain src o).1) := by
  have hA : ∀ e, e ∈ createAll o order → e ∈ (runMain src o).1 := by
    intro e he
    rw [runMain_trace]
    exact List.mem_append.mpr (Or.inl (List.mem_append.mpr (Or.inl
      (List.mem_append.mpr (Or.inl (List.mem_cons_of_mem _ he))))))
  have hB : ∀ e, e ∈ (copyAll src o order initPG).1 →
      e ∈ (runMain src o).1 := by
    intro e he
    rw [runMain_trace]
    exact List.mem_append.mpr (Or.inl (List.mem_append.mpr (Or.inl
      (List.mem_append.mpr (Or.inr he)))))
  have hC : ∀ e, e ∈ (update_sequences o.seqFail order
      (copyAll src o order initPG).2).1 → e ∈ (runMain src o).1 := by
    intro e he
    rw [runMain_trace]
    exact List.mem_append.mpr (Or.inl (List.mem_append.mpr (Or.inr he)))
  refine ⟨?_, ?_, ?_, ?_⟩
  · intro t ht
    exact hB _ (mem_processing_copyAll src o t order initPG ht)
  · exact hC _ (mem_seqSync_update o.seqFail order _)
  · intro t ht hf
    exact hA _ (mem_createAll_error o t order ht hf)
  · intro t ht hf hne
    exact hB _ (mem_insertError_copyAll src o t order initPG ht hf hne)

theorem C4_errors_do_not_stop_migration_witness :
    "policies" ∈ order ∧
    demoFailOracle.insertFail "policies" = true ∧
    demoSrc "policies" ≠ [] ∧
    Event.printInsertError "policies" ∈
      (runMain demoSrc demoFailOracle).1 ∧
    "users" ∈ order ∧
    demoFailOracle.createFail "users" = true ∧
    Event.printCreateError "users" ∈ (runMain demoSrc demoFailOracle).1 ∧
    Event.pgExecSeqSync ∈ (runMain demoSrc demoFailOracle).1 :=
  ⟨by decide, by decide, by decide,
    (C4_errors_do_not_stop_migration demoSrc demoFailOracle).2.2.2
      "policies" (by decide) (by decide) (by decide),
    by decide, by decide,
    (C4_errors_do_not_stop_migration demoSrc demoFailOracle).2.2.1
      "users" (by decide) (by decide),
    (C4_errors_do_not_stop_migration demoSrc demoFailOracle).2.1⟩

/-- Claim C5: every run is the fixed four-phase pipeline: first all
table creations, then the per-table copy phase (each table's extraction
and insertion), and only after every table has been copied the sequence
synchronization, which therefore never precedes any row copy; the run
ends with the final message. -/
theorem C5_pipeline_order (src : String → List (List Value))
    (o : Oracle) :
    ∃ A B C : List Event,
      (runMain src o).1 = A ++ B ++ C ++ [Event.printDone] ∧
      (∀ e ∈ A, isCreateEvent e = true) ∧
      (∀ e ∈ B, isCopyEvent e = true) ∧
      (∀ e ∈ C, isSeqEvent e = true) ∧
      (∀ t ∈ order, Event.pgExecCreate t ∈ A) ∧
      (∀ t ∈ order, Event.srcExec (selectSql (fieldsFor t) t) ∈ B) ∧
      Event.pgExecSeqSync ∈ C := by
  refine ⟨Event.printCreating :: createAll o order,
    (copyAll src o order initPG).1,
    (update_sequences o.seqFail order (copyAll src o order initPG).2).1,
    runMain_trace src o, ?_, ?_, ?_, ?_, ?_, ?_⟩
  · intro e he
    rcases List.mem_cons.mp he with h1 | h1
    · subst h1
      rfl
    · exact createAll_events o order e h1
  · exact copyAll_events src o order initPG
  · exact update_sequences_events o.seqFail order _
  · intro t ht
    exact List.mem_cons_of_mem _ (mem_createAll_of_mem o t order ht)
  · intro t ht
    exact mem_srcExec_copyAll src o t order initPG ht
  · exact mem_seqSync_update o.seqFail order _

theorem C5_pipeline_order_witness :
    ∃ A B C : List Event,
      (runMain demoSrc demoOracle).1 = A ++ B ++ C ++ [Event.printDone] ∧
      (∀ e ∈ A, isCreateEvent e = true) ∧
      (∀ e ∈ B, isCopyEvent e = true) ∧
      (∀ e ∈ C, isSeqEvent e = true) ∧
      (∀ t ∈ order, Event.pgExecCreate t ∈ A) ∧
      (∀ t ∈ order, Event.srcExec (selectSql (fieldsFor t) t) ∈ B) ∧
      Event.pgExecSeqSync ∈ C :=
  C5_pipeline_order demoSrc demoOracle

/-- Claim C6: the source store is only read: the statements a run
executes against the source database are exactly one SELECT per
migrated table, in processing order, and every such statement is the
SELECT built for one of the six tables. -/
theorem C6_source_read_only (src : String → List (List Value))
    (o : Oracle) :
    sourceStatements (runMain src o).1 =
      order.map (fun t => selectSql (fieldsFor t) t) ∧
    ∀ s ∈ sourceStatements (runMain src o).1,
      ∃ t ∈ order, s = selectSql (fieldsFor t) t := by
  have htrace : sourceStatements (runMain src o).1 =
      order.map (fun t => selectSql (fieldsFor t) t) := by
    rw [runMain_trace]
    have h1 := createAll_sourceStatements o order
    have h2 := copyAll_sourceStatements src o order initPG
    have h3 := update_sequences_sourceStatements o.seqFail order
      (copyAll src o order initPG).2
    simp only [sourceStatements] at h1 h2 h3 ⊢
    simp only [List.filterMap_append, List.filterMap_cons, h1, h2, h3]
    rfl
  refine ⟨htrace, ?_⟩
  intro s hs
  rw [htrace] at hs
  rcases List.mem_map.mp hs with ⟨t, ht, hst⟩
  exact ⟨t, ht, hst.symm⟩

theorem C6_source_read_only_witness :
    sourceStatements (runMain demoSrc demoOracle).1 =
      order.map (fun t => selectSql (fieldsFor t) t) :=
  (C6_source_read_only demoSrc demoOracle).1

/-- Claim C7: the static schema describes exactly the six tables
migrations, users, pre_auth_keys, api_keys, policies and nodes, each as
an ordered column list; the run processes exactly these six tables, and
users is processed before pre_auth_keys and before nodes, the two tables
whose column declarations reference users(id). -/
theorem C7_schema_and_order :
    TABLES.map Prod.fst =
      ["migrations", "users", "pre_auth_keys", "api_keys", "policies",
       "nodes"] ∧
    order =
      ["users", "migrations", "pre_auth_keys", "api_keys", "policies",
       "nodes"] ∧
    (∀ t ∈ order, t ∈ TABLES.map Prod.fst) ∧
    (∀ t ∈ TABLES.map Prod.fst, t ∈ order) ∧
    order.indexOf "users" < order.indexOf "pre_auth_keys" ∧
    order.indexOf "users" < order.indexOf "nodes" ∧
    ("user_id", "bigint REFERENCES users(id)") ∈
      tableColumns "pre_auth_keys" ∧
    ("user_id", "bigint REFERENCES users(id)") ∈ tableColumns "nodes" := by
  refine ⟨rfl, rfl, by decide, by decide, by decide, by decide,
    by decide, by decide⟩

theorem C7_schema_and_order_witness :
    "users" ∈ order ∧ "users" ∈ TABLES.map Prod.fst :=
  ⟨by decide, C7_schema_and_order.2.2.1 "users" (by decide)⟩

/-- Claim C8: the bytes conversion for blob columns touches only
non-NULL values: the blob-field table declares exactly the hash column
of api_keys, a NULL in any column survives the coercion as NULL (in
particular in a blob column), a non-NULL byte string survives as that
byte string, and on an api_keys row a NULL in the hash column is passed
to the insert as NULL. -/
theorem C8_blob_null_handling :
    BLOB_FIELDS = [("api_keys", ["hash"])] ∧
    (∀ (bf lf : List String) (f : String),
      coerceField bf lf f Value.null = Value.null) ∧
    (∀ (bf lf : List String) (f : String) (b : List Nat), f ∉ bf →
      coerceField bf lf f (Value.blob b) = Value.blob b) ∧
    ∀ (row : List Value) (i : Nat),
      row.length = (fieldsFor "api_keys").length →
      i < (fieldsFor "api_keys").length →
      row.getD i Value.null = Value.null →
      (processRow (boolFieldsFor "api_keys") (blobFieldsFor "api_keys")
          (fieldsFor "api_keys") row).getD i Value.null = Value.null := by
  refine ⟨rfl, coerceField_null, ?_, ?_⟩
  · intro bf lf f b hbf
    by_cases hlf : f ∈ lf <;> simp [coerceField, hbf, hlf, bytesOf]
  · intro row i h1 h2 hnull
    rw [processRow_getD _ _ _ _ h1 i h2, hnull]
    exact coerceField_null _ _ _

theorem C8_blob_null_handling_witness :
    ("hash" ∉ boolFieldsFor "api_keys" ∧
      coerceField (boolFieldsFor "api_keys") (blobFieldsFor "api_keys")
        "hash" (Value.blob [1, 2, 3]) = Value.blob [1, 2, 3]) ∧
    demoApiRow.length = (fieldsFor "api_keys").length ∧
    demoApiRow.getD 2 Value.null = Value.null ∧
    (processRow (boolFieldsFor "api_keys") (blobFieldsFor "api_keys")
        (fieldsFor "api_keys") demoApiRow).getD 2 Value.null =
      Value.null :=
  ⟨⟨by decide,
    C8_blob_null_handling.2.2.1 (boolFieldsFor "api_keys")
      (blobFieldsFor "api_keys") "hash" [1, 2, 3] (by decide)⟩,
    by decide, by decide,
    C8_blob_null_handling.2.2.2 demoApiRow 2 (by decide) (by decide)
      (by decide)⟩

/-- Claim C9: when a source table has no rows, no INSERT statement is
executed against the target for that table: the step only runs the
SELECT, prints the no-data message, and returns the target state
unchanged. -/
theorem C9_empty_table_no_insert (insertFail : Bool)
    (src : String → List (List Value)) (table : String)
    (fields bool_fields blob_fields : List String) (st : PGState)
    (h : src table = []) :
    (fetch_and_insert insertFail src table fields bool_fields
        blob_fields st).1 =
      [Event.srcExec (selectSql fields table),
       Event.printNoData table] ∧
    (fetch_and_insert insertFail src table fields bool_fields
      blob_fields st).2 = st ∧
    ∀ (t : String) (fs : List String) (rs : List (List Value)),
      Event.pgExecInsert t fs rs ∉
        (fetch_and_insert insertFail src table fields bool_fields
          blob_fields st).1 := by
  have he := fetch_and_insert_eq_empty insertFail src table fields
    bool_fields blob_fields st h
  refine ⟨by rw [he], by rw [he], ?_⟩
  intro t fs rs hmem
  rw [he] at hmem
  simp at hmem

theorem C9_empty_table_no_insert_witness :
    demoSrc "users" = [] ∧
    (fetch_and_insert false demoSrc "users" (fieldsFor "users")
        (boolFieldsFor "users") (blobFieldsFor "users") initPG).1 =
      [Event.srcExec (selectSql (fieldsFor "users") "users"),
       Event.printNoData "users"] ∧
    (fetch_and_insert false demoSrc "users" (fieldsFor "users")
      (boolFieldsFor "users") (blobFieldsFor "users") initPG).2 =
      initPG :=
  ⟨by decide,
    (C9_empty_table_no_insert false demoSrc "users" (fieldsFor "users")
      (boolFieldsFor "users") (blobFieldsFor "users") initPG
      (by decide)).1,
    (C9_empty_table_no_insert false demoSrc "users" (fieldsFor "users")
      (boolFieldsFor "users") (blobFieldsFor "users") initPG
      (by decide)).2.1⟩

/-- Claim C10: every row tuple handed to the bulk insert has exactly one
component per column of the table's field list, and its i-th component
is the (possibly coerced) i-th source value for the i-th field of the
INSERT statement's field list; and mapping the loop body over any batch
of well-formed source rows keeps every tuple at that arity. -/
theorem C10_row_arity_and_order
    (bool_fields blob_fields fields : List String) (row : List Value)
    (hlen : row.length = fields.length) :
    (processRow bool_fields blob_fields fields row).length =
      fields.length ∧
    (∀ i, i < fields.length →
      (processRow bool_fields blob_fields fields row).getD i Value.null =
        coerceField bool_fields blob_fields (fields.getD i "")
          (row.getD i Value.null)) ∧
    ∀ (srcRows : List (List Value)),
      (∀ r ∈ srcRows, r.length = fields.length) →
      ∀ r ∈ srcRows.map (processRow bool_fields blob_fields fields),
        r.length = fields.length := by
  refine ⟨processRow_length _ _ _ _ hlen,
    fun i hi => processRow_getD _ _ _ _ hlen i hi, ?_⟩
  intro srcRows hall r hr
  rcases List.mem_map.mp hr with ⟨r0, hr0, hr0eq⟩
  rw [← hr0eq]
  exact processRow_length _ _ _ _ (hall r0 hr0)

theorem C10_row_arity_and_order_witness :
    demoPakRow.length = (fieldsFor "pre_auth_keys").length ∧
    (processRow (boolFieldsFor "pre_auth_keys")
        (blobFieldsFor "pre_auth_keys") (fieldsFor "pre_auth_keys")
        demoPakRow).length = (fieldsFor "pre_auth_keys").length ∧
    (processRow (boolFieldsFor "pre_auth_keys")
        (blobFieldsFor "pre_auth_keys") (fieldsFor "pre_auth_keys")
        demoPakRow).getD 4 Value.null =
      coerceField (boolFieldsFor "pre_auth_keys")
        (blobFieldsFor "pre_auth_keys")
        ((fieldsFor "pre_auth_keys").getD 4 "")
        (demoPakRow.getD 4 Value.null) :=
  ⟨by decide,
    (C10_row_arity_and_order (boolFieldsFor "pre_auth_keys")
      (blobFieldsFor "pre_auth_keys") (fieldsFor "pre_auth_keys")
      demoPakRow (by decide)).1,
    (C10_row_arity_and_order (boolFieldsFor "pre_auth_keys")
      (blobFieldsFor "pre_auth_keys") (fieldsFor "pre_auth_keys")
      demoPakRow (by decide)).2.1 4 (by decide)⟩

end Sqlite2pg
